import Mathlib

/-!
# Verification of fetch_enrollment

A shallow embedding of the core logic of fetch_enrollment.py (utah-astro/enrollment):
the term codec (term_key_to_semester_year, semester_year_to_term_key), the per-term
enrollment merge built from an astropy-style left join (lines 86-91 of the source),
and the collection driver's term iteration (lines 75-77, 81-95).

Modelling conventions:
* Python strings are Lean String; str.strip / str.lower are modelled over the
  character list (pyStrip, pyLower), since only ASCII inputs matter here.
* Python ints are Nat where the source value is provably non-negative
  (term keys, catalog numbers, enrollment counts) and Int for calendar years,
  with Int.emod for Python's sign-of-divisor modulo.
* Python list indexing, which accepts negative indices counting from the end
  and raises IndexError out of range, is pyIndex.
* Fallible operations (list.index, list indexing) return Option.
* astropy.table.join with join_type left on keys (cat_no, session), followed by
  fill_value 0 on enrolled_phys and filled(), is modelled row-wise: each
  left-table row produces one output row per matching right-table row, or a
  single 0-filled row when nothing matches (database-style left outer join,
  which is what astropy implements; with duplicated keys this is the Cartesian
  product of the matching rows).  astropy additionally sorts the joined table
  by the key columns; that permutation of rows is not modelled because no
  stated property depends on row order.
* line 89 is partial: building the PHYS table from an empty listing raises
  KeyError, because Table(rows=[]) has no columns for the [cols] selection,
  and astropy join raises ValueError when either input table has zero rows,
  which happens exactly when the catalog-number filter empties the primary
  table (the line 84 emptiness guard runs before the filter).  merge
  therefore returns Except, with one error constructor per exception.
-/

namespace Enrollment

/-- Python str.lower restricted to ASCII, over the character list. -/
def pyLower (s : String) : String := String.mk (s.data.map Char.toLower)

/-- Python str.strip: drop leading and trailing whitespace. -/
def pyStrip (s : String) : String :=
  String.mk (((s.data.dropWhile Char.isWhitespace).reverse.dropWhile Char.isWhitespace).reverse)

/-- The literal list indexed at line 29 of the source. -/
def semesterNames : List String := ["Spring", "Summer", "Fall"]

/-- Python list indexing: a negative index counts from the end of the list;
an index out of the range from minus the length to length minus one raises
IndexError, modelled as none. -/
def pyIndex (l : List String) (i : Int) : Option String :=
  if 0 ≤ i then l.get? i.toNat
  else if -(l.length : Int) ≤ i then l.get? (i + l.length).toNat
  else none

/-- Source lines 24-29: convert a term key to (semester, year).
The semester is the Python expression with index term_key mod 10 div 2 minus 2
into the list Spring, Summer, Fall; the year is 2000 plus term_key mod 1000
div 10.  The year is returned as Int (a Python int). -/
def term_key_to_semester_year (term_key : Nat) : Option (String × Int) :=
  (pyIndex semesterNames (((term_key % 10 / 2 : Nat) : Int) - 2)).map
    fun sem => (sem, ((2000 + term_key % 1000 / 10 : Nat) : Int))

/-- Source lines 32-38: convert (semester, year) to a term key.  The semester
is stripped and lowercased (the source binds the normalized string first;
it is inlined here); list.index raises ValueError when absent, hence Option.
The year enters through Python year mod 100, which is Int emod, the meaning
of percent on Int. -/
def semester_year_to_term_key (semester : String) (year : Int) : Option Nat :=
  (List.findIdx? (fun x => x == pyLower (pyStrip semester)) ["spring", "summer", "fall"]).map
    fun i => 1000 + (year % 100).toNat * 10 + i * 2 + 4

/-- One row scraped from a subject listing (source line 53). -/
structure SectionRecord where
  cat_no : Nat
  session : Nat
  title : String
  enrolled : Nat
deriving DecidableEq

/-- The merge key used by the join at source line 89. -/
def keyOf (r : SectionRecord) : Nat × Nat := (r.cat_no, r.session)

/-- One row of the joined and filled per-term table (source lines 89-91). -/
structure MergedRow where
  cat_no : Nat
  session : Nat
  title : String
  enrolled_astr : Nat
  enrolled_phys : Nat
deriving DecidableEq

/-- Source lines 86-87: when minimum_cat_no is truthy (Python None and 0 are
both falsy, modelled together as 0), keep only the primary rows with
cat_no at least minimum_cat_no; otherwise no filtering. -/
def filterPrimary (p : List SectionRecord) (minimum_cat_no : Nat) : List SectionRecord :=
  if minimum_cat_no ≠ 0 then p.filter (fun r => minimum_cat_no ≤ r.cat_no) else p

/-- The secondary rows sharing a primary row's (cat_no, session) key. -/
def matchesFor (s : List SectionRecord) (r : SectionRecord) : List SectionRecord :=
  s.filter (fun q => q.cat_no == r.cat_no && q.session == r.session)

/-- The output rows one left-table row contributes to the left join of source
line 89, after the masked secondary count is filled with 0 (lines 90-91):
one row per matching secondary row, or a single row with enrolled_phys 0
when no secondary row matches. -/
def leftJoinRow (s : List SectionRecord) (r : SectionRecord) : List MergedRow :=
  if (matchesFor s r).isEmpty then [⟨r.cat_no, r.session, r.title, r.enrolled, 0⟩]
  else (matchesFor s r).map fun q2 => ⟨r.cat_no, r.session, r.title, r.enrolled, q2.enrolled⟩

/-- The exceptions line 89 can raise.  missingColumns is the KeyError from
selecting [cat_no, session, enrolled] on the column-less Table built from an
empty PHYS listing; emptyJoinInput is the ValueError astropy join raises
when an input table has zero rows, which for this call happens exactly when
the catalog-number filter left the primary table without rows. -/
inductive MergeError
  | missingColumns
  | emptyJoinInput
deriving DecidableEq

instance exceptDecEq {ε α : Type} [DecidableEq ε] [DecidableEq α] :
    DecidableEq (Except ε α)
  | .error a, .error b =>
    if h : a = b then .isTrue (by rw [h]) else .isFalse (by simp [h])
  | .error _, .ok _ => .isFalse (by simp)
  | .ok _, .error _ => .isFalse (by simp)
  | .ok a, .ok b =>
    if h : a = b then .isTrue (by rw [h]) else .isFalse (by simp [h])

/-- The rows of a successful line 89 join, after the fill of lines 90-91:
each surviving primary row contributes its leftJoinRow block. -/
def joinedRows (p s : List SectionRecord) (minimum_cat_no : Nat) : List MergedRow :=
  ((filterPrimary p minimum_cat_no).map (leftJoinRow s)).flatten

/-- Source lines 86-91: the per-term merge of the primary (ASTR) and secondary
(PHYS) listings: catalog-number filter on the primary side only, then the
left join keyed on (cat_no, session), then fill the missing secondary
counts with 0.  Python evaluates the join's arguments first, so an empty
secondary listing raises KeyError before the join runs; then the join
itself raises ValueError when the filtered primary table has zero rows.
Only with both tables non-empty are rows produced. -/
def merge (p s : List SectionRecord) (minimum_cat_no : Nat) :
    Except MergeError (List MergedRow) :=
  if s.isEmpty then .error .missingColumns
  else if (filterPrimary p minimum_cat_no).isEmpty then .error .emptyJoinInput
  else .ok (joinedRows p s minimum_cat_no)

/-- A merged row together with the combined count of source line 98. -/
structure CombinedRow where
  cat_no : Nat
  session : Nat
  title : String
  enrolled_astr : Nat
  enrolled_phys : Nat
  enrolled_all : Nat
deriving DecidableEq

/-- Source line 98, row-wise: enrolled_all is the sum of the astr and phys
counts.  The source applies this to the stacked table; it is a per-row map,
so applying it to one term's rows is the same operation. -/
def addCombined (rows : List MergedRow) : List CombinedRow :=
  rows.map fun r =>
    ⟨r.cat_no, r.session, r.title, r.enrolled_astr, r.enrolled_phys,
      r.enrolled_astr + r.enrolled_phys⟩

/-- The per-term merge including the combined column (when it emits at all). -/
def mergedWithTotal (p s : List SectionRecord) (minimum_cat_no : Nat) :
    Except MergeError (List CombinedRow) :=
  (merge p s minimum_cat_no).map addCombined

/-- A merged row tagged with its term (source lines 93-94). -/
structure TaggedRow where
  cat_no : Nat
  session : Nat
  title : String
  enrolled_astr : Nat
  enrolled_phys : Nat
  year : Int
  semester : String
deriving DecidableEq

/-- Source lines 93-94: tag each merged row with the term's year and semester. -/
def tagRows (year : Int) (semester : String) (rows : List MergedRow) : List TaggedRow :=
  rows.map fun r =>
    ⟨r.cat_no, r.session, r.title, r.enrolled_astr, r.enrolled_phys, year, semester⟩

/-- Source lines 83-95, one loop iteration: fetch results are passed in as the
primary and secondary lists.  The line 84 emptiness guard runs BEFORE the
catalog-number filter, so only a primary listing that is empty as fetched is
skipped; a listing emptied by the filter reaches line 89 and its exception
propagates.  On success the merged rows are tagged with the term. -/
def termContribution (primary secondary : List SectionRecord) (minimum_cat_no : Nat)
    (semester : String) (year : Int) : Except MergeError (List TaggedRow) :=
  if primary.isEmpty then .ok []
  else (merge primary secondary minimum_cat_no).map (tagRows year semester)

/-- Python range(a, b, -1) as a list: a, a-1, ..., b+1 (empty when a is at
most b). -/
def pyRangeDown (a b : Int) : List Int :=
  (List.range (a - b).toNat).map (fun i => a - (i : Int))

/-- Source lines 76-77: the term list.  year_end is year_start minus
num_years; for year descending through range(year_start, year_end, -1) emit
(Spring, year+1) then (Fall, year); the sum with start the empty list is
list concatenation. -/
def termsList (year_start num_years : Int) : List (String × Int) :=
  ((pyRangeDown year_start (year_start - num_years)).map
    (fun year => [("Spring", year + 1), ("Fall", year)])).flatten

/-- Source lines 81-95: process the term list in order.  The fetcher is an
abstract function from term key and subject to the scraped records (the
Section Fetcher boundary).  Any uncaught exception, from the codec or from
line 89, aborts the whole run, modelled as none; on success each term
appends its contribution. -/
def runTerms (fetch : Nat → String → List SectionRecord) (minimum_cat_no : Nat) :
    List (String × Int) → Option (List TaggedRow)
  | [] => some []
  | (sem, yr) :: rest =>
    (semester_year_to_term_key sem yr).bind fun key =>
      match termContribution (fetch key "ASTR") (fetch key "PHYS") minimum_cat_no sem yr with
      | .error _ => none
      | .ok rows => (runTerms fetch minimum_cat_no rest).map fun tail => rows ++ tail

/-- Source lines 75-95: the whole collection loop over the term range. -/
def run (fetch : Nat → String → List SectionRecord) (year_start num_years : Int)
    (minimum_cat_no : Nat) : Option (List TaggedRow) :=
  runTerms fetch minimum_cat_no (termsList year_start num_years)

/-- Decoding the key built from a two-digit year remainder r and a semester
index i recovers the capitalized semester of index i and the year 2000 + r. -/
theorem decode_encoded_key : ∀ r : Nat, r < 100 → ∀ i : Nat, i < 3 →
    term_key_to_semester_year (1000 + r * 10 + i * 2 + 4) =
      some (semesterNames.getD i "", ((2000 + r : Nat) : Int)) := by decide

/-- C1 (Codec round-trip): for every year in [2000, 2099] and every semester
string whose stripped, lowercased form is the i-th entry of the lowercase
semester list, decoding the encoded term key returns exactly the i-th
canonical capitalized semester name with that year. -/
theorem C1_codec_roundtrip (s : String) (y : Int) (h1 : 2000 ≤ y) (h2 : y ≤ 2099)
    (i : Nat) (hi : i < 3)
    (hs : pyLower (pyStrip s) = ["spring", "summer", "fall"].getD i "") :
    (semester_year_to_term_key s y).bind term_key_to_semester_year =
      some (semesterNames.getD i "", y) := by
  have hidx : List.findIdx? (fun x => x == pyLower (pyStrip s))
      ["spring", "summer", "fall"] = some i := by
    rw [hs]
    interval_cases i <;> decide
  have henc : semester_year_to_term_key s y =
      some (1000 + (y % 100).toNat * 10 + i * 2 + 4) := by
    unfold semester_year_to_term_key
    rw [hidx]
    rfl
  have hr : (y % 100).toNat < 100 := by omega
  rw [henc, Option.some_bind, decode_encoded_key _ hr _ hi]
  have hy : ((2000 + (y % 100).toNat : Nat) : Int) = y := by omega
  rw [hy]

/-- C1 witness: encoding the uncanonical string " FaLl " with year 2023 and
decoding back gives the canonical pair (Fall, 2023). -/
theorem C1_codec_roundtrip_witness :
    (semester_year_to_term_key " FaLl " 2023).bind term_key_to_semester_year =
      some (semesterNames.getD 2 "", 2023) :=
  C1_codec_roundtrip " FaLl " 2023 (by decide) (by decide) 2 (by decide) (by decide)

/-- C4 counterexample: decode(1111), whose last digit gives the semester
index 1 div 2 minus 2 = minus 2, does not fail: Python negative indexing
resolves index minus 2 to Summer, so it returns (Summer, 2011). -/
theorem C4_decode_no_error_counterexample :
    term_key_to_semester_year 1111 = some ("Summer", 2011) := by decide

/-- C4 amended: for any term key whose last digit d makes the semester index
d div 2 minus 2 negative (d at most 3), decode does not fail: Python negative
indexing resolves index minus 2 to Summer (d at most 1) and index minus 1 to
Fall (d equal to 2 or 3). -/
theorem C4_negative_index_decode (k : Nat) (h : k % 10 ≤ 3) :
    term_key_to_semester_year k =
      some ((if k % 10 ≤ 1 then "Summer" else "Fall"),
        ((2000 + k % 1000 / 10 : Nat) : Int)) := by
  obtain ⟨d, hd, hk⟩ : ∃ d, d < 4 ∧ k % 10 = d := ⟨k % 10, by omega, rfl⟩
  unfold term_key_to_semester_year
  rw [hk]
  interval_cases d <;> norm_num [pyIndex, semesterNames] <;> decide

/-- C4 amended witness: decode(1113) succeeds and returns Fall 2011. -/
theorem C4_negative_index_decode_witness :
    term_key_to_semester_year 1113 =
      some ((if 1113 % 10 ≤ 1 then "Summer" else "Fall"),
        ((2000 + 1113 % 1000 / 10 : Nat) : Int)) :=
  C4_negative_index_decode 1113 (by decide)

/-- C9 (encode rejects invalid semesters): for any semester string whose
stripped, lowercased form is not one of spring, summer, fall, encoding fails
for every year. -/
theorem C9_encode_rejects_invalid_semester (s : String) (y : Int)
    (h : pyLower (pyStrip s) ∉ ["spring", "summer", "fall"]) :
    semester_year_to_term_key s y = none := by
  simp only [List.mem_cons, List.not_mem_nil, or_false] at h
  push_neg at h
  obtain ⟨h1, h2, h3⟩ := h
  simp only [semester_year_to_term_key, Option.map_eq_none']
  rw [List.findIdx?_eq_none_iff]
  intro x hx
  simp only [List.mem_cons, List.not_mem_nil, or_false] at hx
  rcases hx with rfl | rfl | rfl
  · exact beq_eq_false_iff_ne.mpr h1.symm
  · exact beq_eq_false_iff_ne.mpr h2.symm
  · exact beq_eq_false_iff_ne.mpr h3.symm

/-- C9 witness: encode("Winter", 2023) fails. -/
theorem C9_encode_rejects_invalid_semester_witness :
    semester_year_to_term_key "Winter" 2023 = none :=
  C9_encode_rejects_invalid_semester "Winter" 2023 (by decide)

/-- C10 (decode is total on naturals): for every non-negative term key,
decode returns some pair; keys with last digit 0 or 1 decode to Summer and
keys with last digit 2 or 3 decode to Fall, through Python negative
indexing. -/
theorem C10_decode_total (k : Nat) :
    (term_key_to_semester_year k).isSome = true ∧
    (k % 10 ≤ 1 →
      term_key_to_semester_year k =
        some ("Summer", ((2000 + k % 1000 / 10 : Nat) : Int))) ∧
    ((k % 10 = 2 ∨ k % 10 = 3) →
      term_key_to_semester_year k =
        some ("Fall", ((2000 + k % 1000 / 10 : Nat) : Int))) := by
  obtain ⟨d, hd, hk⟩ : ∃ d, d < 10 ∧ k % 10 = d := ⟨k % 10, Nat.mod_lt _ (by omega), rfl⟩
  unfold term_key_to_semester_year
  rw [hk]
  interval_cases d <;> norm_num [pyIndex, semesterNames] <;> decide

/-- C10 witness: decode(1110) returns Summer 2011 and decode(1112) succeeds. -/
theorem C10_decode_total_witness :
    term_key_to_semester_year 1110 =
      some ("Summer", ((2000 + 1110 % 1000 / 10 : Nat) : Int)) ∧
    (term_key_to_semester_year 1112).isSome = true :=
  ⟨(C10_decode_total 1110).2.1 (by decide), (C10_decode_total 1112).1⟩

/-- Membership in the matching-secondary list is membership in the secondary
list together with key equality. -/
theorem mem_matchesFor {s : List SectionRecord} {r q : SectionRecord} :
    q ∈ matchesFor s r ↔ q ∈ s ∧ q.cat_no = r.cat_no ∧ q.session = r.session := by
  simp [matchesFor, List.mem_filter]

/-- Every row a left-table row contributes carries that row's key, title and
primary count, and its secondary count is either the 0 fill or the count of
some matching secondary row. -/
theorem leftJoinRow_spec {s : List SectionRecord} {r : SectionRecord} {row : MergedRow}
    (h : row ∈ leftJoinRow s r) :
    row.cat_no = r.cat_no ∧ row.session = r.session ∧ row.title = r.title ∧
      row.enrolled_astr = r.enrolled ∧
      (row.enrolled_phys = 0 ∨
        ∃ q, q ∈ matchesFor s r ∧ row.enrolled_phys = q.enrolled) := by
  unfold leftJoinRow at h
  by_cases hm : (matchesFor s r).isEmpty
  · rw [if_pos hm] at h
    simp only [List.mem_singleton] at h
    subst h
    exact ⟨rfl, rfl, rfl, rfl, Or.inl rfl⟩
  · rw [if_neg hm] at h
    simp only [List.mem_map] at h
    obtain ⟨q, hq, rfl⟩ := h
    exact ⟨rfl, rfl, rfl, rfl, Or.inr ⟨q, hq, rfl⟩⟩

/-- A left-table row always contributes at least one output row. -/
theorem leftJoinRow_ne_nil (s : List SectionRecord) (r : SectionRecord) :
    leftJoinRow s r ≠ [] := by
  unfold leftJoinRow
  by_cases hm : (matchesFor s r).isEmpty
  · rw [if_pos hm]; simp
  · rw [if_neg hm]
    simp only [ne_eq, List.map_eq_nil_iff]
    simpa [List.isEmpty_iff] using hm

/-- The number of rows a left-table row contributes: one when nothing
matches, otherwise one per matching secondary row. -/
theorem length_leftJoinRow (s : List SectionRecord) (r : SectionRecord) :
    (leftJoinRow s r).length = max 1 (matchesFor s r).length := by
  unfold leftJoinRow
  by_cases hm : (matchesFor s r).isEmpty
  · rw [if_pos hm]
    rw [List.isEmpty_iff] at hm
    simp [hm]
  · rw [if_neg hm, List.length_map]
    rw [List.isEmpty_iff] at hm
    have := List.length_pos.mpr hm
    omega

/-- Each matching (primary, secondary) pair yields its own output row. -/
theorem pair_row_mem_leftJoinRow {s : List SectionRecord} {r q : SectionRecord}
    (hq : q ∈ matchesFor s r) :
    (⟨r.cat_no, r.session, r.title, r.enrolled, q.enrolled⟩ : MergedRow) ∈
      leftJoinRow s r := by
  unfold leftJoinRow
  have hne : ¬(matchesFor s r).isEmpty := by
    rw [List.isEmpty_iff]
    intro hnil
    rw [hnil] at hq
    exact List.not_mem_nil q hq
  rw [if_neg hne]
  exact List.mem_map_of_mem _ hq

/-- A row is among the joined rows exactly when some surviving primary row
contributes it. -/
theorem mem_joinedRows {p s : List SectionRecord} {m : Nat} {row : MergedRow} :
    row ∈ joinedRows p s m ↔ ∃ r, r ∈ filterPrimary p m ∧ row ∈ leftJoinRow s r := by
  simp only [joinedRows, List.mem_flatten, List.mem_map]
  constructor
  · rintro ⟨l, ⟨r, hr, rfl⟩, hrow⟩
    exact ⟨r, hr, hrow⟩
  · rintro ⟨r, hr, hrow⟩
    exact ⟨leftJoinRow s r, ⟨r, hr, rfl⟩, hrow⟩

/-- The joined-row count is the sum over surviving primary rows of their
contribution lengths. -/
theorem length_joinedRows (p s : List SectionRecord) (m : Nat) :
    (joinedRows p s m).length =
      ((filterPrimary p m).map (fun r => (leftJoinRow s r).length)).sum := by
  simp only [joinedRows, List.length_flatten, List.map_map]
  rfl

/-- The merge emits exactly when the secondary listing is non-empty (else the
KeyError) and the filtered primary is non-empty (else the join ValueError),
and then it emits precisely the joined rows. -/
theorem merge_ok_iff {p s : List SectionRecord} {m : Nat} {rows : List MergedRow} :
    merge p s m = .ok rows ↔
      s ≠ [] ∧ filterPrimary p m ≠ [] ∧ rows = joinedRows p s m := by
  unfold merge
  by_cases hs : s.isEmpty
  · rw [if_pos hs]
    rw [List.isEmpty_iff] at hs
    simp [hs]
  · rw [if_neg hs]
    rw [List.isEmpty_iff] at hs
    by_cases hp : (filterPrimary p m).isEmpty
    · rw [if_pos hp]
      rw [List.isEmpty_iff] at hp
      simp [hs, hp]
    · rw [if_neg hp]
      rw [List.isEmpty_iff] at hp
      simp [hs, hp, eq_comm]

/-- A map that is constantly one sums to the list length. -/
theorem sum_map_eq_length {α : Type} (l : List α) (f : α → Nat)
    (h : ∀ a ∈ l, f a = 1) : (l.map f).sum = l.length := by
  induction l with
  | nil => simp
  | cons a t ih =>
    simp only [List.map_cons, List.sum_cons, List.length_cons,
      h a (List.mem_cons_self a t)]
    rw [ih (fun x hx => h x (List.mem_cons_of_mem a hx))]
    omega

/-- When the secondary keys are pairwise distinct, at most one secondary row
matches any primary row. -/
theorem length_matchesFor_le_one {s : List SectionRecord}
    (hnd : (s.map keyOf).Nodup) (r : SectionRecord) :
    (matchesFor s r).length ≤ 1 := by
  induction s with
  | nil => simp [matchesFor]
  | cons q t ih =>
    simp only [List.map_cons, List.nodup_cons] at hnd
    obtain ⟨hq, ht⟩ := hnd
    by_cases hmatch : (q.cat_no == r.cat_no && q.session == r.session) = true
    · unfold matchesFor
      rw [List.filter_cons]
      simp only [hmatch, if_true]
      have htail : matchesFor t r = [] := by
        rcases hx : matchesFor t r with _ | ⟨x, xs⟩
        · rfl
        · exfalso
          have hxm : x ∈ matchesFor t r := by rw [hx]; exact List.mem_cons_self x xs
          obtain ⟨hxt, hxc, hxs⟩ := mem_matchesFor.mp hxm
          simp only [Bool.and_eq_true, beq_iff_eq] at hmatch
          apply hq
          rw [List.mem_map]
          refine ⟨x, hxt, ?_⟩
          simp [keyOf, hxc, hxs, hmatch.1, hmatch.2]
      unfold matchesFor at htail
      rw [htail]
      simp
    · unfold matchesFor
      rw [List.filter_cons]
      simp only [hmatch, if_false]
      exact ih ht

/-- C2 (Merge totals): whenever the program emits, every emitted row's
combined count is the sum of its primary and secondary counts, and its
secondary count is 0 whenever no secondary record shares its (cat_no,
session) key. -/
theorem C2_merge_totals (p s : List SectionRecord) (m : Nat)
    (rows : List CombinedRow) (hok : mergedWithTotal p s m = .ok rows)
    (row : CombinedRow) (hrow : row ∈ rows) :
    row.enrolled_all = row.enrolled_astr + row.enrolled_phys ∧
    ((∀ q ∈ s, ¬(q.cat_no = row.cat_no ∧ q.session = row.session)) →
      row.enrolled_phys = 0) := by
  obtain ⟨mrows, hmok, rfl⟩ :
      ∃ mrows, merge p s m = .ok mrows ∧ rows = addCombined mrows := by
    unfold mergedWithTotal at hok
    rcases hme : merge p s m with e | mrows
    · rw [hme] at hok
      exact absurd hok (by simp [Except.map])
    · rw [hme] at hok
      simp only [Except.map, Except.ok.injEq] at hok
      exact ⟨mrows, rfl, hok.symm⟩
  obtain ⟨-, -, hjoined⟩ := merge_ok_iff.mp hmok
  subst hjoined
  simp only [addCombined, List.mem_map] at hrow
  obtain ⟨mr, hmr, rfl⟩ := hrow
  refine ⟨rfl, ?_⟩
  intro hno
  obtain ⟨r, hrP, hlj⟩ := mem_joinedRows.mp hmr
  obtain ⟨e1, e2, _, _, hphys⟩ := leftJoinRow_spec hlj
  rcases hphys with h0 | ⟨q, hq, hqe⟩
  · exact h0
  · exfalso
    obtain ⟨hqs, hqc, hqsess⟩ := mem_matchesFor.mp hq
    exact hno q hqs ⟨by rw [hqc, ← e1], by rw [hqsess, ← e2]⟩

/-- C2 witness: in the spec scenario with one cross-listed section, the
emitted row 3500/1 with counts 40 and 5 has combined count 40 + 5. -/
theorem C2_merge_totals_witness :
    (⟨3500, 1, "Intro Astro", 40, 5, 45⟩ : CombinedRow).enrolled_all =
      (⟨3500, 1, "Intro Astro", 40, 5, 45⟩ : CombinedRow).enrolled_astr +
        (⟨3500, 1, "Intro Astro", 40, 5, 45⟩ : CombinedRow).enrolled_phys :=
  (C2_merge_totals [⟨3500, 1, "Intro Astro", 40⟩] [⟨3500, 1, "X", 5⟩] 1000
    [⟨3500, 1, "Intro Astro", 40, 5, 45⟩] (by decide)
    ⟨3500, 1, "Intro Astro", 40, 5, 45⟩ (by decide)).1

/-- C3 counterexample: with one surviving primary row and two secondary rows
sharing its key, the program emits two rows, not one per surviving primary
record. -/
theorem C3_cardinality_counterexample :
    merge [⟨1500, 1, "A", 10⟩]
        [⟨1500, 1, "P1", 3⟩, ⟨1500, 1, "P2", 4⟩] 1000 =
      .ok [⟨1500, 1, "A", 10, 3⟩, ⟨1500, 1, "A", 10, 4⟩] ∧
    ([⟨1500, 1, "A", 10, 3⟩, ⟨1500, 1, "A", 10, 4⟩] : List MergedRow).length ≠
      (filterPrimary [⟨1500, 1, "A", 10⟩] 1000).length := by decide

/-- C3 amended (Merge left-join cardinality): whenever the program emits
(non-empty secondary listing and non-empty filtered primary, since line 89
raises otherwise) and the secondary records have pairwise distinct (cat_no,
session) keys, the number of merged rows equals the number of primary
records surviving the catalog-number filter, with each surviving primary
row contributing exactly one; and a secondary row whose key matches no
surviving primary row never appears in the output. -/
theorem C3_left_join_cardinality (p s : List SectionRecord) (m : Nat)
    (rows : List MergedRow) (hnd : (s.map keyOf).Nodup)
    (hok : merge p s m = .ok rows) :
    rows.length = (filterPrimary p m).length ∧
    ∀ q ∈ s, (∀ r ∈ filterPrimary p m, keyOf q ≠ keyOf r) →
      ∀ row ∈ rows, ¬(row.cat_no = q.cat_no ∧ row.session = q.session) := by
  obtain ⟨-, -, hjoined⟩ := merge_ok_iff.mp hok
  subst hjoined
  constructor
  · rw [length_joinedRows, sum_map_eq_length]
    intro r hr
    rw [length_leftJoinRow]
    have := length_matchesFor_le_one hnd r
    omega
  · rintro q hq hnomatch row hrow ⟨hc, hs2⟩
    obtain ⟨r, hrP, hlj⟩ := mem_joinedRows.mp hrow
    obtain ⟨e1, e2, _⟩ := leftJoinRow_spec hlj
    apply hnomatch r hrP
    simp only [keyOf, Prod.mk.injEq]
    exact ⟨by rw [← hc]; exact e1, by rw [← hs2]; exact e2⟩

/-- C3 amended witness: with distinct secondary keys the emitted row count
equals the surviving primary count. -/
theorem C3_left_join_cardinality_witness :
    ([⟨3500, 1, "Intro", 40, 5⟩] : List MergedRow).length =
      (filterPrimary [⟨3500, 1, "Intro", 40⟩] 1000).length :=
  (C3_left_join_cardinality [⟨3500, 1, "Intro", 40⟩] [⟨3500, 1, "X", 5⟩] 1000
    [⟨3500, 1, "Intro", 40, 5⟩] (by decide) (by decide)).1

/-- C5 counterexample: with the threshold unset no filtering occurs, yet a
primary row yields no merged row at all when the secondary listing is
empty: line 89 raises the KeyError while building the PHYS table, so the
program emits nothing. -/
theorem C5_filter_counterexample :
    merge [⟨3500, 1, "A", 40⟩] [] 0 = .error .missingColumns := by decide

/-- C5 amended (Filter correctness): when minimum_cat_no is truthy no emitted
row has a catalog number below it; when it is falsy (None or 0) no
filtering occurs and, whenever the merge emits at all (line 89 raises on an
empty secondary listing), every primary row yields at least one merged row
carrying its fields. -/
theorem C5_filter_correctness (p s : List SectionRecord) (m : Nat) :
    (m ≠ 0 → ∀ rows, merge p s m = .ok rows → ∀ row ∈ rows, m ≤ row.cat_no) ∧
    (m = 0 → filterPrimary p m = p ∧
      ∀ rows, merge p s m = .ok rows →
        ∀ r ∈ p, ∃ row ∈ rows, row.cat_no = r.cat_no ∧
          row.session = r.session ∧ row.title = r.title ∧
          row.enrolled_astr = r.enrolled) := by
  constructor
  · intro hm rows hok row hrow
    obtain ⟨-, -, hjoined⟩ := merge_ok_iff.mp hok
    subst hjoined
    obtain ⟨r, hrP, hlj⟩ := mem_joinedRows.mp hrow
    obtain ⟨e1, _⟩ := leftJoinRow_spec hlj
    rw [e1]
    unfold filterPrimary at hrP
    rw [if_pos hm] at hrP
    simp only [List.mem_filter, decide_eq_true_eq] at hrP
    exact hrP.2
  · intro hm
    have hfp : filterPrimary p m = p := by
      unfold filterPrimary
      rw [if_neg (by simp [hm])]
    refine ⟨hfp, fun rows hok r hr => ?_⟩
    obtain ⟨-, -, hjoined⟩ := merge_ok_iff.mp hok
    subst hjoined
    have hne := leftJoinRow_ne_nil s r
    obtain ⟨row, hrow⟩ := List.exists_mem_of_ne_nil _ hne
    obtain ⟨e1, e2, e3, e4, _⟩ := leftJoinRow_spec hrow
    exact ⟨row, mem_joinedRows.mpr ⟨r, by rw [hfp]; exact hr, hrow⟩, e1, e2, e3, e4⟩

/-- C5 witness: with threshold 1000 and a successful merge, the row surviving
from catalog number 3500 has catalog number at least 1000. -/
theorem C5_filter_correctness_witness :
    1000 ≤ (⟨3500, 1, "Hi", 40, 0⟩ : MergedRow).cat_no :=
  (C5_filter_correctness [⟨999, 1, "Low", 10⟩, ⟨3500, 1, "Hi", 40⟩]
    [⟨1, 1, "x", 1⟩] 1000).1 (by decide) [⟨3500, 1, "Hi", 40, 0⟩] (by decide)
    ⟨3500, 1, "Hi", 40, 0⟩ (by decide)

/-- C8 counterexample: a duplicated secondary key does not resolve to a
single last-write-wins row; the join emits one row per matching pair, so
both secondary counts 3 and 4 appear and the single surviving primary
occurrence produces two rows. -/
theorem C8_duplicate_key_counterexample :
    merge [⟨2000, 1, "B", 10⟩] [⟨2000, 1, "x", 3⟩, ⟨2000, 1, "y", 4⟩] 1000 =
      .ok [⟨2000, 1, "B", 10, 3⟩, ⟨2000, 1, "B", 10, 4⟩] ∧
    ([⟨2000, 1, "B", 10, 3⟩, ⟨2000, 1, "B", 10, 4⟩] : List MergedRow).length ≠ 1 := by
  decide

/-- C8 amended: duplicate (cat_no, session) keys are resolved by the
database-style join, not by last-write-wins: whenever the program emits,
each surviving primary row produces max 1 (number of matching secondary
rows) output rows, and every matching (primary, secondary) pair surfaces as
its own row carrying that secondary row's enrolled count. -/
theorem C8_duplicate_key_join (p s : List SectionRecord) (m : Nat)
    (rows : List MergedRow) (hok : merge p s m = .ok rows) :
    rows.length =
      ((filterPrimary p m).map (fun r => max 1 (matchesFor s r).length)).sum ∧
    ∀ r ∈ filterPrimary p m, ∀ q ∈ matchesFor s r,
      ∃ row ∈ rows, row.cat_no = r.cat_no ∧ row.session = r.session ∧
        row.title = r.title ∧ row.enrolled_astr = r.enrolled ∧
        row.enrolled_phys = q.enrolled := by
  obtain ⟨-, -, hjoined⟩ := merge_ok_iff.mp hok
  subst hjoined
  constructor
  · rw [length_joinedRows]
    congr 1
    exact List.map_congr_left (fun r _ => length_leftJoinRow s r)
  · intro r hr q hq
    exact ⟨⟨r.cat_no, r.session, r.title, r.enrolled, q.enrolled⟩,
      mem_joinedRows.mpr ⟨r, hr, pair_row_mem_leftJoinRow hq⟩, rfl, rfl, rfl, rfl, rfl⟩

/-- C8 amended witness: the pair of the primary 4000/1 row with the first of
two duplicate-key secondary rows surfaces as its own output row. -/
theorem C8_duplicate_key_join_witness :
    ∃ row ∈ ([⟨4000, 1, "Obs", 12, 2⟩, ⟨4000, 1, "Obs", 12, 9⟩] : List MergedRow),
      row.cat_no = (⟨4000, 1, "Obs", 12⟩ : SectionRecord).cat_no ∧
      row.session = (⟨4000, 1, "Obs", 12⟩ : SectionRecord).session ∧
      row.title = (⟨4000, 1, "Obs", 12⟩ : SectionRecord).title ∧
      row.enrolled_astr = (⟨4000, 1, "Obs", 12⟩ : SectionRecord).enrolled ∧
      row.enrolled_phys = (⟨4000, 1, "a", 2⟩ : SectionRecord).enrolled :=
  (C8_duplicate_key_join [⟨4000, 1, "Obs", 12⟩]
    [⟨4000, 1, "a", 2⟩, ⟨4000, 1, "b", 9⟩] 1000
    [⟨4000, 1, "Obs", 12, 2⟩, ⟨4000, 1, "Obs", 12, 9⟩] (by decide)).2
    ⟨4000, 1, "Obs", 12⟩ (by decide) ⟨4000, 1, "a", 2⟩ (by decide)

/-- C6 (Driver term order): the term list is exactly, in order, (Spring,
year+1) then (Fall, year) for year running from year_start down through
num_years consecutive years, and Summer never occurs. -/
theorem C6_driver_term_order (ys n : Int) :
    termsList ys n =
      ((List.range n.toNat).map
        (fun i => [("Spring", ys - (i : Int) + 1), ("Fall", ys - (i : Int))])).flatten ∧
    ∀ st ∈ termsList ys n, st.1 ≠ "Summer" := by
  have hrange : pyRangeDown ys (ys - n) =
      (List.range n.toNat).map (fun i => ys - (i : Int)) := by
    unfold pyRangeDown
    have he : (ys - (ys - n)).toNat = n.toNat := by omega
    rw [he]
  have hterms : termsList ys n =
      ((List.range n.toNat).map
        (fun i => [("Spring", ys - (i : Int) + 1), ("Fall", ys - (i : Int))])).flatten := by
    unfold termsList
    rw [hrange, List.map_map]
    rfl
  refine ⟨hterms, ?_⟩
  intro st hst
  rw [hterms] at hst
  simp only [List.mem_flatten, List.mem_map] at hst
  obtain ⟨l, ⟨i, _, rfl⟩, hstl⟩ := hst
  simp only [List.mem_cons, List.not_mem_nil, or_false] at hstl
  rcases hstl with rfl | rfl <;> simp

/-- C6 witness: with year_start 2023 and num_years 2 the term list matches
the enumerated order, and its first member (Spring, 2024) is not Summer. -/
theorem C6_driver_term_order_witness :
    termsList 2023 2 =
      ((List.range (2 : Int).toNat).map
        (fun i => [("Spring", 2023 - (i : Int) + 1), ("Fall", 2023 - (i : Int))])).flatten ∧
    (("Spring", (2024 : Int)) : String × Int).1 ≠ "Summer" :=
  ⟨(C6_driver_term_order 2023 2).1,
    (C6_driver_term_order 2023 2).2 ("Spring", 2024) (by decide)⟩

/-- C7 (Empty-term skip) fails on the code: the line 84 emptiness guard runs
before the catalog-number filter, so a primary listing emptied only by the
filter reaches the join at line 89 with zero rows and astropy raises
ValueError instead of silently skipping the term.  At the spec's own
scenario (one primary record with catalog number 999, threshold 1000, a
non-empty secondary listing) the merge raises the zero-row-join error, the
term's contribution is that error rather than an empty row set, and the
whole run aborts with no output. -/
theorem C7_filtered_empty_raises :
    filterPrimary [⟨999, 1, "Low", 10⟩] 1000 = [] ∧
    merge [⟨999, 1, "Low", 10⟩] [⟨999, 1, "X", 5⟩] 1000 =
      .error .emptyJoinInput ∧
    termContribution [⟨999, 1, "Low", 10⟩] [⟨999, 1, "X", 5⟩] 1000 "Fall" 2023 =
      .error .emptyJoinInput ∧
    runTerms
      (fun _ subj => if subj = "ASTR" then [⟨999, 1, "Low", 10⟩] else [⟨999, 1, "X", 5⟩])
      1000 [("Fall", 2023)] = none := by decide

end Enrollment
